import Mathlib

/-!
Verification development for the mali-edu-360 recording-ingestion backend.

The definitions below are shallow embeddings of the TypeScript source:

* `RecordingsService` (recordings service file): webhook pipeline
  `processRecordingCompleted`, the manual-retry engine (`manualRetry`,
  `processRetryTarget`, `executeRepublishMode`, `executeFullMode`), the
  resumable downloader (`downloadZoomRecording`, `handleDownloadResponse`),
  and the retry policy (`backoffWithJitter`, `withRobustRetries`).
* `DriveService.uploadFile`: the resumable-upload chunk loop.
* `ZoomWebhookController.handleWebhook`: webhook admission.
* `SchedulerService.wakeupPreviews`: the preview wakeup job.

Machine integers are modelled as `Nat` (the quantities involved are byte
counts, millisecond delays and attempt counters, all non-negative and far
from overflow in the source). External I/O (HTTP responses, Drive and
Moodle answers, the wall clock) is supplied by explicit environment
records of oracles; data-base tables are explicit lists threaded through
the functions; observable side effects are accumulated in an explicit
trace list.
-/

namespace MaliEdu

/-! ### Retry / backoff policy

Source: `backoffWithJitter`, `withRobustRetries` and the config defaults
of `RecordingsService`. -/

/-- Default of env `INITIAL_BACKOFF_MS` (`getIntEnv` fallback 30000). -/
def INITIAL_BACKOFF_MS : Nat := 30000

/-- Default of env `MAX_BACKOFF_MS` (`getIntEnv` fallback 300000). -/
def MAX_BACKOFF_MS : Nat := 300000

/-- Default of env `MAX_RETRIES_DOWNLOAD` (`getIntEnv` fallback 10). -/
def MAX_RETRIES_DOWNLOAD : Nat := 10

/-- Default of env `MAX_RETRIES_UPLOAD` (`getIntEnv` fallback 10). -/
def MAX_RETRIES_UPLOAD : Nat := 10

/-- Source `backoffWithJitter(attempt, base, max)` of the recordings service.
The source computes `exp = Math.min(max, base * 2**attempt)`, draws
`jitter = Math.floor(Math.random() * Math.floor(exp * 0.2))` and returns
`Math.min(max, exp + jitter)`.  The random draw is modelled by the
explicit argument `jitter`; a draw is valid when
`jitter < max 1 (exp / 5)` (`Math.random() < 1`). -/
def backoffWithJitter (attempt base mx jitter : Nat) : Nat :=
  let e := Nat.min mx (base * 2 ^ attempt)
  Nat.min mx (e + jitter)

/-- The delay formula as the specification states it:
`delay(attempt) = min(MAX, BASE * 2^attempt) + U[0, 0.2 * exp)`,
with the jitter added WITHOUT a final clamp. -/
def specBackoffDelay (attempt base mx jitter : Nat) : Nat :=
  Nat.min mx (base * 2 ^ attempt) + jitter

/-- Attempt bound chosen by `withRobustRetries` for a label:
`label === 'download' ? MAX_RETRIES_DOWNLOAD : MAX_RETRIES_UPLOAD`
(at the config defaults). -/
def maxAttemptsFor (label : String) : Nat :=
  if label == "download" then MAX_RETRIES_DOWNLOAD else MAX_RETRIES_UPLOAD

/-- Loop body of `withRobustRetries`: attempts are numbered
`attempt, attempt+1, ...` while `fuel` attempts remain; `outcomes n` is
the result of the n-th call of the retried closure.  Returns the final
result together with the number of the last attempt made. -/
def runRetriesAux {T : Type} (outcomes : Nat → Except String T) :
    Nat → Nat → Except String T × Nat
  | _, 0 => (.error "no-attempts", 0)
  | attempt, fuel + 1 =>
    match outcomes attempt with
    | .ok v => (.ok v, attempt)
    | .error e =>
      if fuel = 0 then (.error e, attempt)
      else runRetriesAux outcomes (attempt + 1) fuel

/-- Source `withRobustRetries(label, fn)`: runs `fn` for attempts `1..maxAttempts`
and rethrows the last error once the bound is reached. -/
def withRobustRetries {T : Type} (maxAttempts : Nat)
    (outcomes : Nat → Except String T) : Except String T × Nat :=
  runRetriesAux outcomes 1 maxAttempts

/-! ### MP4 file selection

Source: the file-selection expressions of `processRecordingCompleted`
(webhook path) and of `executeFullMode` (manual-retry full mode). -/

/-- One entry of the `recording_files` array of a Zoom payload.  String
fields use `""` for an absent value (a JS falsy `undefined` or empty
string). -/
structure RecFile where
  id : String
  file_id : String := ""
  recording_start : String := ""
  file_type : String
  download_url : String
  status : String
  recording_status : String := ""
  recording_type : String := ""
  file_size : Nat := 0
  deriving DecidableEq

/-- Webhook-path primary predicate:
`f.file_type === 'MP4' && f.download_url && (f.status === 'completed' || f.recording_status === 'completed')`. -/
def isCompletedMp4 (f : RecFile) : Bool :=
  f.file_type == "MP4" && f.download_url != "" &&
    (f.status == "completed" || f.recording_status == "completed")

/-- Webhook-path fallback predicate: `f.file_type === 'MP4' && f.download_url`. -/
def isMp4WithUrl (f : RecFile) : Bool :=
  f.file_type == "MP4" && f.download_url != ""

/-- Webhook-path MP4 selection: first file satisfying the primary
predicate, else the first MP4 that has a download URL at all. -/
def selectMp4Webhook (files : List RecFile) : Option RecFile :=
  (files.find? isCompletedMp4).orElse (fun _ => files.find? isMp4WithUrl)

/-- The `preferOrder` array of `executeFullMode`. -/
def preferOrder : List String :=
  ["shared_screen_with_speaker_view", "active_speaker", "speaker_view", "gallery_view"]

/-- Comparator weight: `indexOf(recording_type)`, with `-1` mapped to
`preferOrder.length` as in the source (`ia === -1 ? preferOrder.length : ia`). -/
def prefWeight (f : RecFile) : Nat :=
  (preferOrder.findIdx? (fun s => s == f.recording_type)).getD preferOrder.length

/-- Boolean order corresponding to the `executeFullMode` sort comparator
`(a, b) => wa !== wb ? wa - wb : (b.file_size || 0) - (a.file_size || 0)`:
`a` may come before `b` iff `a` has strictly smaller weight, or equal
weight and at least as large a file size. -/
def mp4Le (a b : RecFile) : Bool :=
  if prefWeight a == prefWeight b then b.file_size ≤ a.file_size
  else prefWeight a < prefWeight b

/-- Full-mode candidate filter:
`f.file_type === 'MP4' && f.status === 'completed'` (note: no
download-URL requirement in the source). -/
def isFullModeCandidate (f : RecFile) : Bool :=
  f.file_type == "MP4" && f.status == "completed"

/-- The comparator as a decidable relation, for the stable sort.  The
source uses `Array.prototype.sort` with a consistent comparator, whose
result is the unique stable order; `List.insertionSort` computes the
same order. -/
def mp4LeRel (a b : RecFile) : Prop := mp4Le a b = true

instance : DecidableRel mp4LeRel :=
  fun a b => inferInstanceAs (Decidable (mp4Le a b = true))

/-- Full-mode MP4 selection of `executeFullMode`: sort the candidates by
the comparator and take the first element. -/
def selectMp4Full (files : List RecFile) : Option RecFile :=
  (List.insertionSort mp4LeRel (files.filter isFullModeCandidate)).head?

/-- The selection that the specification describes: restrict to MP4
entries that have a download URL AND status completed, then pick by
preference order with the size tie-break.  (Definition follows the
wording of the spec, for comparison with the source selections.) -/
def specClaimSelect (files : List RecFile) : Option RecFile :=
  (List.insertionSort mp4LeRel (files.filter (fun f =>
    f.file_type == "MP4" && f.download_url != "" &&
    f.status == "completed"))).head?

/-! ### Resumable uploader chunk loop

Source: `DriveService.uploadFile`, status handling of the PUT loop. -/

/-- Digits of a decimal numeral to a `Nat` (`parseInt(m[1], 10)`). -/
def digitsToNat (ds : List Char) : Nat :=
  ds.foldl (fun n c => 10 * n + (c.toNat - 48)) 0

/-- Try to match the regex `bytes=\d+-(\d+)` at the head of the character
list, returning the captured group as a number. -/
def rangeMatchAt (cs : List Char) : Option Nat :=
  match cs with
  | 'b' :: 'y' :: 't' :: 'e' :: 's' :: '=' :: rest =>
    let d1 := rest.takeWhile Char.isDigit
    let r1 := rest.dropWhile Char.isDigit
    if d1.isEmpty then none
    else
      match r1 with
      | '-' :: r2 =>
        let d2 := r2.takeWhile Char.isDigit
        if d2.isEmpty then none else some (digitsToNat d2)
      | _ => none
  | _ => none

/-- Scan for the first match of `bytes=\d+-(\d+)` anywhere in the list
(`RegExp.exec` searches the whole string). -/
def rangeScan : List Char → Option Nat
  | [] => none
  | c :: t =>
    match rangeMatchAt (c :: t) with
    | some k => some k
    | none => rangeScan t

/-- Source regex `/bytes=\d+-(\d+)/.exec(range)` of `uploadFile`, returning the
captured end byte. -/
def parseRangeEnd (s : String) : Option Nat :=
  rangeScan s.data

/-- One PUT response as seen by the chunk loop (after
`withUploadRetries`, which only lets non-429, non-5xx statuses through
or throws). -/
structure UploadResp where
  status : Nat
  range : Option String
  deriving DecidableEq

/-- Outcome of the chunk loop. -/
inductive UploadOutcome where
  /-- A 2xx response ended the loop, or `offset` reached `total`. -/
  | complete
  /-- Error `Drive stuck returning 308 without Range` was thrown. -/
  | stuck308
  /-- Error `Resumable upload fallo status=...` was thrown. -/
  | httpError (status : Nat)
  /-- The finite response trace ended while the upload was incomplete. -/
  | ranOut
  deriving DecidableEq

/-- Source `end = Math.min(offset + chunkSize, total) - 1` of the chunk loop. -/
def chunkEnd (offset chunkSize total : Nat) : Nat :=
  Nat.min (offset + chunkSize) total - 1

/-- The `while (offset < total)` PUT loop of `uploadFile`, consuming one
response of the trace per iteration and tracking `offset` and
`noRange308Count`. -/
def uploadChunkLoop (chunkSize total : Nat) :
    List UploadResp → Nat → Nat → UploadOutcome
  | resps, offset, noRangeCount =>
    if total ≤ offset then .complete
    else
      match resps with
      | [] => .ranOut
      | res :: rest =>
        if res.status == 308 then
          match res.range with
          | some s =>
            let offNext :=
              match parseRangeEnd s with
              | some k => k + 1
              | none => chunkEnd offset chunkSize total + 1
            uploadChunkLoop chunkSize total rest offNext 0
          | none =>
            let c := noRangeCount + 1
            if 5 ≤ c then .stuck308
            else uploadChunkLoop chunkSize total rest offset c
        else if 200 ≤ res.status && res.status < 300 then .complete
        else .httpError res.status

/-! ### Resumable downloader

Source: `downloadZoomRecording` and `handleDownloadResponse` of the
recordings service.  The local file is an `Option (List Nat)` of bytes
(`none` = the path does not exist); the remote server is an oracle
mapping the index of the HTTP call and the requested range start to a
response. -/

/-- One GET response of the download server. -/
structure DlResponse where
  status : Nat
  contentType : String := ""
  body : List Nat := []
  deriving DecidableEq

/-- Downloader environment: `serve i r` is the response to the i-th
`makeRequest` of this invocation, issued with `Range: bytes=r-` when
`r > 0` and no Range header when `r = 0`.  `useWebhookToken` is
`Boolean(webhookDownloadToken)`. -/
structure DlEnv where
  serve : Nat → Nat → DlResponse
  useWebhookToken : Bool

/-- Source `handleDownloadResponse(res, filePath, flags, startByte, expectedBytes)`:
416 acceptance, error statuses, and the write of the body with flag
`'a'` (append) only for a 206 response.  On success the value is the
resulting file content. -/
def handleDownloadResponse (res : DlResponse) (file : Option (List Nat))
    (append : Bool) (expected : Option Nat) : Except String (List Nat) :=
  if res.status == 416 then
    match expected, file with
    | some e, some c =>
      if e ≤ c.length then .ok c else .error "Descarga fallo status=416"
    | _, _ => .error "Descarga fallo status=416"
  else if res.status < 200 || 300 ≤ res.status then
    .error ("Descarga fallo status=" ++ toString res.status)
  else
    let writeAppend := if res.status == 206 then append else false
    if writeAppend then .ok (file.getD [] ++ res.body)
    else .ok res.body

/-- Source `downloadZoomRecording(url, filePath, webhookDownloadToken,
expectedBytes)`.  `startByte` is the size of an existing non-empty local
file; a 401/403 on OAuth triggers one token refresh and re-request; a
200 answer to a ranged request deletes the local file and restarts the
request from byte 0 with a fresh write. -/
def downloadZoomRecording (env : DlEnv) (file : Option (List Nat))
    (expected : Option Nat) : Except String (List Nat) :=
  let startByte := (file.getD []).length
  let append := decide (0 < startByte)
  let r0 := env.serve 0 startByte
  let refreshed := !env.useWebhookToken && (r0.status == 401 || r0.status == 403)
  let r1 := if refreshed then env.serve 1 startByte else r0
  let idx := if refreshed then 2 else 1
  if 0 < startByte && r1.status == 200 then
    handleDownloadResponse (env.serve idx 0) none false expected
  else
    handleDownloadResponse r1 file append expected

/-! ### Webhook admission

Source: `ZoomWebhookController.handleWebhook`, the variant that handles
`endpoint.url_validation` before signature verification.  `hmacHex k m`
models `createHmac('sha256', k).update(m).digest('hex')`; the
constant-time comparison (`a.length === b.length && timingSafeEqual`)
is semantically string equality. -/

/-- Response body of the webhook endpoint (HTTP status is always 200). -/
inductive WebhookResp where
  | ignored
  | invalidSignature
  /-- Body `{status: 'ok'}`: `processRecordingCompleted` was dispatched. -/
  | okDispatched
  | validation (plainToken encryptedToken : String)
  deriving DecidableEq

/-- Source `handleWebhook` of the webhook controller, with the configuration
(`ZOOM_WEBHOOK_SECRET`, `ZOOM_WEBHOOK_DISABLE_SIGNATURE`) and the parsed
request as arguments. -/
def handleWebhook (hmacHex : String → String → String) (secret : String)
    (bypass : Bool) (event : String) (plainToken : Option String)
    (rawBody timestamp signature : String) : WebhookResp :=
  if event == "endpoint.url_validation" then
    if secret == "" then .ignored
    else
      match plainToken with
      | none => .ignored
      | some t => .validation t (hmacHex secret t)
  else if secret == "" then .ignored
  else
    let valid :=
      if bypass then true
      else signature == "v0=" ++ hmacHex secret ("v0:" ++ timestamp ++ ":" ++ rawBody)
    if !valid then .invalidSignature
    else if event == "recording.completed" then .okDispatched
    else .ignored

/-! ### Data model rows -/

/-- Row of the `meetings` table (fields relevant to the pipeline). -/
structure MeetingRow where
  id : String
  zoomMeetingId : String
  topic : String
  courseIdMoodle : Nat
  status : String
  deriving DecidableEq

/-- Row of the `recordings` table. -/
structure RecordingRow where
  id : String
  meetingId : String
  zoomRecordingId : String
  driveUrl : String
  createdAt : Nat := 0
  lastRetryAt : Option Nat := none
  retryCount : Nat := 0
  driveWakeupAttempts : Nat := 0
  lastDriveWakeupAt : Option Nat := none
  deriving DecidableEq

/-! ### Preview wakeup job

Source: `SchedulerService.wakeupPreviews` (the variant with the
`driveWakeupAttempts` bookkeeping) and its `extractFileId`. -/

/-- Character class of the capture group `[a-zA-Z0-9_-]`. -/
def fileIdChar (c : Char) : Bool :=
  c.isAlphanum || c == '_' || c == '-'

/-- Try to match `\/file\/d\/([a-zA-Z0-9_-]+)` at the head of the list. -/
def filePathMatchAt (cs : List Char) : Option String :=
  match cs with
  | '/' :: 'f' :: 'i' :: 'l' :: 'e' :: '/' :: 'd' :: '/' :: rest =>
    let ds := rest.takeWhile fileIdChar
    if ds.isEmpty then none else some (String.mk ds)
  | _ => none

/-- Scan for the first match of the path regex. -/
def filePathScan : List Char → Option String
  | [] => none
  | c :: t =>
    match filePathMatchAt (c :: t) with
    | some s => some s
    | none => filePathScan t

/-- Try to match `[?&]id=([^&#]+)` at the head of the list. -/
def queryIdMatchAt (cs : List Char) : Option String :=
  match cs with
  | c :: 'i' :: 'd' :: '=' :: rest =>
    if c == '?' || c == '&' then
      let ds := rest.takeWhile (fun d => d != '&' && d != '#')
      if ds.isEmpty then none else some (String.mk ds)
    else none
  | _ => none

/-- Scan for the first match of the query regex. -/
def queryIdScan : List Char → Option String
  | [] => none
  | c :: t =>
    match queryIdMatchAt (c :: t) with
    | some s => some s
    | none => queryIdScan t

/-- Source `extractFileId(url)`: the `/file/d/<id>` capture, else the `?id=<id>`
capture; `""` stands for a NULL url. -/
def extractFileId (url : String) : Option String :=
  if url == "" then none
  else
    match filePathScan url.data with
    | some s => some s
    | none => queryIdScan url.data

/-- Environment of one run of the wakeup job.  `metaBefore` / `metaAfter`
give `(hasThumbnail, processingStatus)` of `getFileMetadata`, `none`
meaning the call threw; `wakeUpVideoPreview` swallows all its errors and
needs no oracle. -/
structure WakeupEnv where
  fromTs : Nat
  toTs : Nat
  cutoff : Nat
  nowTs : Nat
  metaBefore : String → Option (Bool × String)
  metaAfter : String → Option (Bool × String)

/-- The selection query of `wakeupPreviews`: previous-day window, a
drive URL present, `driveWakeupAttempts < 2`, and `lastDriveWakeupAt`
NULL or at most the 90-minute cutoff. -/
def wakeupSelect (env : WakeupEnv) (recs : List RecordingRow) : List RecordingRow :=
  recs.filter (fun r =>
    decide (env.fromTs ≤ r.createdAt) && decide (r.createdAt < env.toTs) &&
    r.driveUrl != "" && decide (r.driveWakeupAttempts < 2) &&
    (match r.lastDriveWakeupAt with
     | none => true
     | some t => decide (t ≤ env.cutoff)))

/-- Source `recRepo.update(rec.id, {driveWakeupAttempts, lastDriveWakeupAt})`. -/
def updateWakeup (recs : List RecordingRow) (id : String) (a ts : Nat) :
    List RecordingRow :=
  recs.map (fun r =>
    if r.id == id then
      { r with driveWakeupAttempts := a, lastDriveWakeupAt := some ts }
    else r)

/-- Body of the per-recording loop of `wakeupPreviews`.  A failing
`getFileMetadata` lands in the catch block, which also writes
`attemptNumber`; the give-up branch (thumbnail present but processing
not ready) writes exactly 2. -/
def wakeupStep (env : WakeupEnv) (recs : List RecordingRow)
    (rec : RecordingRow) : List RecordingRow :=
  match extractFileId rec.driveUrl with
  | none => recs
  | some fid =>
    -- attemptNumber = rec.driveWakeupAttempts + 1
    match env.metaBefore fid with
    | none => updateWakeup recs rec.id (rec.driveWakeupAttempts + 1) env.nowTs
    | some (hasThumb, procStatus) =>
      if hasThumb && procStatus != "ready" then
        updateWakeup recs rec.id 2 env.nowTs
      else
        -- wakeUpVideoPreview + second getFileMetadata: both the success
        -- and the caught-error paths write attemptNumber.
        match env.metaAfter fid with
        | none => updateWakeup recs rec.id (rec.driveWakeupAttempts + 1) env.nowTs
        | some _ => updateWakeup recs rec.id (rec.driveWakeupAttempts + 1) env.nowTs

/-- Source `wakeupPreviews()`: run the selection, then the loop over the
selected snapshot. -/
def wakeupPreviews (env : WakeupEnv) (recs : List RecordingRow) :
    List RecordingRow :=
  (wakeupSelect env recs).foldl (wakeupStep env) recs

/-! ### Pipeline coordinator and manual-retry engine

Source: `RecordingsService`.  Two variants of
`processRecordingCompleted` exist in the sources: the current one
(in-memory `fileLocks` and `uploadSemaphore`, everything inside one
`try/finally` that releases the in-flight id) and a legacy one in which
the MP4-selection check sits BEFORE the `try` whose `finally` releases
the in-flight id.  Both are embedded below. -/

/-- Observable side effects, in program order.  `moodleCoursePost`,
`moodleForumQuery` and `moodleForumPost` are outbound POST requests to
the Moodle webservice endpoint; `zoomApiGet`, `driveListQuery` are
outbound GETs; `driveEnsureFolder` may create a folder;
`httpDownload` / `driveUpload` are the transfer calls; the Insert /
Update / release constructors are data-base writes. -/
inductive Effect where
  | moodleCoursePost
  | moodleForumQuery
  | moodleForumPost (subject : String)
  | zoomApiGet (what : String)
  | driveListQuery
  | driveEnsureFolder
  | httpDownload (url : String)
  | driveUpload (path : String)
  | insertMeeting (zoomMeetingId : String)
  | insertRecording (zoomRecordingId : String)
  | updateMeetingStatus (meetingId : String)
  | updateRecordingRetry (recordingId : String)
  | updateRecordingUrl (recordingId : String)
  | releaseLicense (meetingId : String)
  | deleteLocal (path : String)
  deriving DecidableEq

/-- The per-process state touched by the service: the two tables and the
three in-memory guards. -/
structure PState where
  meetings : List MeetingRow
  recordings : List RecordingRow
  inFlight : List String := []
  fileLocks : List String := []
  semActive : Nat := 0
  deriving DecidableEq

/-- Environment of oracles for everything outside the service.

* `resolveCourse t` — outcome of the cascading Moodle course lookup for
  topic `t` inside `resolveExternalMeetingFromTopic` (exact fullname,
  by-field fullname and shortname, free search, the normalized variants,
  the progressive truncations, and the `DEFAULT_COURSE_ID_MOODLE`
  fallback); each consultation issues Moodle webservice POST calls,
  recorded as `Effect.moodleCoursePost`.
* `newMeetingId` / `newRecordingId` — generated row ids.
* `driveFindByRecId z` — `driveService.findFileByZoomRecordingId(z)`,
  the `webViewLink` when a file with that tag exists.
* `downloadOk` — whether the download phase (HEAD warmup, GET, file
  validation, wrapped in its retries) ends in success.
* `uploadResult` — `webViewLink` of the upload phase (resumable upload,
  MD5 and size verification, wrapped in its retries), `none` = it threw.
* `forumId` — `moodleService.getRecordedForumId`, `none` = it threw.
* `forumPostOk` — whether `addForumDiscussion` (with retries) succeeds.
* `nowTag` / `today` / `nowTs` — wall clock readings.
* `zoomTopicFor z` — topic from `zoomRecordingsService.getRecordingById`.
* `zoomFilesFor z` — `recording_files` from the same lookup in
  `executeFullMode`, `none` = no recording found. -/
structure PipeEnv where
  resolveCourse : String → Option Nat
  newMeetingId : String := "m-new"
  newRecordingId : String := "r-new"
  driveFindByRecId : String → Option String := fun _ => none
  downloadOk : Bool := true
  uploadResult : Option String := none
  forumId : Option Nat := none
  forumPostOk : Bool := true
  nowTag : String := "t"
  today : String := "d"
  nowTs : Nat := 0
  zoomTopicFor : String → Option String := fun _ => none
  zoomFilesFor : String → Option (List RecFile) := fun _ => none

/-- Final JSON body of the webhook pipeline, or the thrown error. -/
inductive WebhookOutcome where
  | ignored
  | inflight
  | done (driveUrl : String)
  | failed (msg : String)
  deriving DecidableEq

/-- Source `String(mp4.id || mp4.file_id || mp4.recording_start || 'unknown')`. -/
def recFileId (f : RecFile) : String :=
  if f.id != "" then f.id
  else if f.file_id != "" then f.file_id
  else if f.recording_start != "" then f.recording_start
  else "unknown"

/-- Source `.replace(/[^a-zA-Z0-9-_]/g, '_')` on one character. -/
def sanitizeChar (c : Char) : Char :=
  if c.isAlphanum || c == '-' || c == '_' then c else '_'

/-- Source `(topic || 'Clase').replace(/[^a-zA-Z0-9-_]/g, '_').slice(0, 50)`. -/
def sanitizeTopic (topic : String) : String :=
  String.mk ((topic.data.map sanitizeChar).take 50)

/-- Webhook-path local filename
`<sanitizedTopic>_<timestamp>_<zoomRecordingId>.mp4` joined under
`DOWNLOADS_DIR`. -/
def webhookLocalPath (topic : Option String) (nowTag zrid : String) : String :=
  "/app/downloads/" ++ sanitizeTopic (topic.getD "Clase") ++ "_" ++ nowTag ++
    "_" ++ zrid ++ ".mp4"

/-- Source `meetingRepo.update(meetingId, {status: 'completed'})`. -/
def markMeetingCompleted (ms : List MeetingRow) (mid : String) : List MeetingRow :=
  ms.map (fun m => if m.id == mid then { m with status := "completed" } else m)

/-- Forum-post subject
`` `${topic || 'Clase grabada'} | ${date} [${zoomRecordingId}]` ``. -/
def forumSubject (topic : Option String) (today zrid : String) : String :=
  topic.getD "Clase grabada" ++ " | " ++ today ++ " [" ++ zrid ++ "]"

/-- Source `resolveExternalMeetingFromTopic(zoomMeetingId, topic)`: `null`
without a topic; otherwise the course lookup cascade (summarized by
`env.resolveCourse`, its webservice POSTs recorded), and on success a
minimal Meeting row is created and saved. -/
def resolveExternalMeetingFromTopic (env : PipeEnv) (st : PState)
    (zoomMeetingId : String) (topic : Option String) :
    Option MeetingRow × PState × List Effect :=
  match topic with
  | none => (none, st, [])
  | some t =>
    match env.resolveCourse t with
    | none => (none, st, [.moodleCoursePost])
    | some cid =>
      let m : MeetingRow :=
        { id := env.newMeetingId, zoomMeetingId := zoomMeetingId, topic := t,
          courseIdMoodle := cid, status := "scheduled" }
      (some m, { st with meetings := st.meetings ++ [m] },
        [.moodleCoursePost, .insertMeeting zoomMeetingId])

/-- Source `withFileLock(filePath, fn)`: register the lock, run the body, and
release the lock in the `finally`. -/
def withFileLockRun {α : Type} (localPath : String) (st : PState)
    (body : PState → α × PState × List Effect) : α × PState × List Effect :=
  match body { st with fileLocks := localPath :: st.fileLocks } with
  | (out, st1, fx) =>
    (out, { st1 with fileLocks := st1.fileLocks.erase localPath }, fx)

/-- Parsed `recording.completed` payload:
`zoomMeetingId = String(object?.id || object?.uuid || '')` (so `""`
means both were falsy), the topic, the file list, and the single-use
download token. -/
structure Payload where
  zoomMeetingId : String
  topic : Option String
  recording_files : List RecFile
  download_token : Option String := none

/-- Body of the full webhook pipeline inside the file lock: download
with retries, Drive folders, upload under the semaphore (acquired, and
released in the finally of `semaphore.run`) with MD5/size verification,
best-effort post-upload probes, forum resolution and post, Recording
persistence, meeting completion, license release, local cleanup. -/
def fullPipelineBody (env : PipeEnv) (st : PState) (p : Payload)
    (m : MeetingRow) (zrid : String) (mp4 : RecFile) (localPath : String) :
    WebhookOutcome × PState × List Effect :=
  if !env.downloadOk then
    (.failed "download-failed", st, [.httpDownload mp4.download_url])
  else
    let fx1 : List Effect :=
      [.httpDownload mp4.download_url, .driveEnsureFolder, .driveEnsureFolder]
    let stAcq := { st with semActive := st.semActive + 1 }
    let stRel := { stAcq with semActive := stAcq.semActive - 1 }
    match env.uploadResult with
    | none => (.failed "upload-failed", stRel, fx1 ++ [.driveUpload localPath])
    | some link =>
      let fx2 := fx1 ++ [.driveUpload localPath, .driveListQuery, .driveListQuery]
      match env.forumId with
      | none => (.failed "forum-lookup-failed", stRel, fx2 ++ [.moodleForumQuery])
      | some _ =>
        let subject := forumSubject p.topic env.today zrid
        if !env.forumPostOk then
          (.failed "forum-post-failed", stRel,
            fx2 ++ [.moodleForumQuery, .moodleForumPost subject])
        else
          let row : RecordingRow :=
            { id := env.newRecordingId, meetingId := m.id,
              zoomRecordingId := zrid, driveUrl := link }
          (.done link,
           { stRel with recordings := stRel.recordings ++ [row],
                        meetings := markMeetingCompleted stRel.meetings m.id },
           fx2 ++ [.moodleForumQuery, .moodleForumPost subject,
                   .insertRecording zrid, .updateMeetingStatus m.id,
                   .releaseLicense m.id, .deleteLocal localPath])

/-- Continuation of `processRecordingCompleted` once a Meeting row is at
hand: MP4 selection, the two idempotency probes (Recording row, Drive
tag), then the full pipeline under the file lock. -/
def processAfterMeeting (env : PipeEnv) (st : PState) (p : Payload)
    (m : MeetingRow) (fx0 : List Effect) : WebhookOutcome × PState × List Effect :=
  match selectMp4Webhook p.recording_files with
  | none => (.ignored, st, fx0)
  | some mp4 =>
    let zrid := recFileId mp4
    match st.recordings.find? (fun r => r.zoomRecordingId == zrid) with
    | some existing =>
      (.done existing.driveUrl,
       { st with meetings := markMeetingCompleted st.meetings m.id },
       fx0 ++ [.updateMeetingStatus m.id, .releaseLicense m.id])
    | none =>
      match env.driveFindByRecId zrid with
      | some link =>
        let row : RecordingRow :=
          { id := env.newRecordingId, meetingId := m.id,
            zoomRecordingId := zrid, driveUrl := link }
        (.done link,
         { st with recordings := st.recordings ++ [row],
                   meetings := markMeetingCompleted st.meetings m.id },
         fx0 ++ [.driveListQuery, .insertRecording zrid,
                 .updateMeetingStatus m.id, .releaseLicense m.id])
      | none =>
        let localPath := webhookLocalPath p.topic env.nowTag zrid
        let (out, st1, fx1) := withFileLockRun localPath st
          (fun stL => fullPipelineBody env stL p m zrid mp4 localPath)
        (out, st1, fx0 ++ [.driveListQuery] ++ fx1)

/-- The `try` body of `processRecordingCompleted`: Meeting lookup, LTI
synthesis when missing, then `processAfterMeeting`. -/
def processBody (env : PipeEnv) (st : PState) (p : Payload) :
    WebhookOutcome × PState × List Effect :=
  match st.meetings.find? (fun m => m.zoomMeetingId == p.zoomMeetingId) with
  | some m => processAfterMeeting env st p m []
  | none =>
    let (inferred, st1, fx) :=
      resolveExternalMeetingFromTopic env st p.zoomMeetingId p.topic
    match inferred with
    | none => (.ignored, st1, fx)
    | some m => processAfterMeeting env st1 p m fx

/-- Source `processRecordingCompleted(payload)` — current variant: payload
guard, in-flight guard, then the whole body inside `try { ... } finally
{ inFlightMeetings.delete(zoomMeetingId) }`. -/
def processRecordingCompleted (env : PipeEnv) (st : PState) (p : Payload) :
    WebhookOutcome × PState × List Effect :=
  if p.zoomMeetingId == "" || p.recording_files.isEmpty then
    (.ignored, st, [])
  else if st.inFlight.contains p.zoomMeetingId then
    (.inflight, st, [])
  else
    match processBody env
        { st with inFlight := p.zoomMeetingId :: st.inFlight } p with
    | (out, st1, fx) =>
      (out, { st1 with inFlight := st1.inFlight.erase p.zoomMeetingId }, fx)

/-- The `try` body of the legacy variant (no file lock, no semaphore):
idempotency probes, then download, upload, forum post, persistence. -/
def legacyTryBody (env : PipeEnv) (st : PState) (p : Payload)
    (m : MeetingRow) (mp4 : RecFile) : WebhookOutcome × PState × List Effect :=
  let zrid := recFileId mp4
  match st.recordings.find? (fun r => r.zoomRecordingId == zrid) with
  | some existing =>
    (.done existing.driveUrl,
     { st with meetings := markMeetingCompleted st.meetings m.id },
     [.updateMeetingStatus m.id, .releaseLicense m.id])
  | none =>
    match env.driveFindByRecId zrid with
    | some link =>
      let row : RecordingRow :=
        { id := env.newRecordingId, meetingId := m.id,
          zoomRecordingId := zrid, driveUrl := link }
      (.done link,
       { st with recordings := st.recordings ++ [row],
                 meetings := markMeetingCompleted st.meetings m.id },
       [.driveListQuery, .insertRecording zrid,
        .updateMeetingStatus m.id, .releaseLicense m.id])
    | none =>
      if !env.downloadOk then
        (.failed "download-failed", st,
         [.driveListQuery, .httpDownload mp4.download_url])
      else
        let fx1 : List Effect :=
          [.driveListQuery, .httpDownload mp4.download_url,
           .driveEnsureFolder, .driveEnsureFolder]
        match env.uploadResult with
        | none => (.failed "upload-failed", st, fx1 ++ [.driveUpload "local"])
        | some link =>
          match env.forumId with
          | none =>
            (.failed "forum-lookup-failed", st,
             fx1 ++ [.driveUpload "local", .moodleForumQuery])
          | some _ =>
            let subject := forumSubject p.topic env.today zrid
            if !env.forumPostOk then
              (.failed "forum-post-failed", st,
               fx1 ++ [.driveUpload "local", .moodleForumQuery,
                       .moodleForumPost subject])
            else
              let row : RecordingRow :=
                { id := env.newRecordingId, meetingId := m.id,
                  zoomRecordingId := zrid, driveUrl := link }
              (.done link,
               { st with recordings := st.recordings ++ [row],
                         meetings := markMeetingCompleted st.meetings m.id },
               fx1 ++ [.driveUpload "local", .moodleForumQuery,
                       .moodleForumPost subject, .insertRecording zrid,
                       .updateMeetingStatus m.id, .releaseLicense m.id,
                       .deleteLocal "local"])

/-- Legacy continuation after the Meeting is at hand.  The MP4-selection
check sits BEFORE the `try/finally`, so its `ignored` return does NOT
release the in-flight id. -/
def legacyAfterMeeting (env : PipeEnv) (st : PState) (p : Payload)
    (m : MeetingRow) (fx0 : List Effect) : WebhookOutcome × PState × List Effect :=
  match selectMp4Webhook p.recording_files with
  | none => (.ignored, st, fx0)
  | some mp4 =>
    let (out, st1, fx1) := legacyTryBody env st p m mp4
    (out, { st1 with inFlight := st1.inFlight.erase p.zoomMeetingId },
     fx0 ++ fx1)

/-- Source `processRecordingCompleted(payload)` — legacy variant: the early
meeting-resolution failures release the in-flight id by explicit
`delete` calls, the rest relies on the `try/finally` that starts only
AFTER the MP4-selection check. -/
def processRecordingCompletedLegacy (env : PipeEnv) (st : PState) (p : Payload) :
    WebhookOutcome × PState × List Effect :=
  if p.zoomMeetingId == "" || p.recording_files.isEmpty then
    (.ignored, st, [])
  else if st.inFlight.contains p.zoomMeetingId then
    (.inflight, st, [])
  else
    let stIn := { st with inFlight := p.zoomMeetingId :: st.inFlight }
    match stIn.meetings.find? (fun m => m.zoomMeetingId == p.zoomMeetingId) with
    | some m => legacyAfterMeeting env stIn p m []
    | none =>
      let (inferred, st1, fx) :=
        resolveExternalMeetingFromTopic env stIn p.zoomMeetingId p.topic
      match inferred with
      | none =>
        (.ignored, { st1 with inFlight := st1.inFlight.erase p.zoomMeetingId }, fx)
      | some m => legacyAfterMeeting env st1 p m fx

/-! ### Manual retry engine

Source: `manualRetry`, `resolveRetryTargets`, `processRetryTarget`,
`determineRetryMode`, `executeRepublishMode`, `executeFullMode`. -/

/-- Source `RetryRequestDTO`.  `Option` fields are `undefined` when `none`;
boolean flags default to false as a JS falsy `undefined`. -/
structure RetryDTO where
  zoomRecordingId : Option String := none
  meetingId : Option String := none
  zoomMeetingId : Option String := none
  fromTs : Option Nat := none
  toTs : Option Nat := none
  republish : Bool := false
  forceRedownload : Bool := false
  forceRepost : Bool := false
  overrideCourseIdMoodle : Option Nat := none
  dryRun : Bool := false
  limit : Option Nat := none

/-- One resolved retry target (element of the `targets` array). -/
structure RetryTarget where
  zoomRecordingId : Option String := none
  meetingId : Option String := none
  zoomMeetingId : Option String := none
  courseIdMoodle : Option Nat := none
  topic : Option String := none
  recording : Option RecordingRow := none
  meeting : Option MeetingRow := none
  deriving DecidableEq

/-- The fields of a `RetryResult` that the claims are about. -/
structure RetryResultM where
  mode : String
  status : String
  reason : String
  deriving DecidableEq

/-- Target built from a Meeting row plus one of its Recording rows. -/
def targetOfMeetingRec (m : MeetingRow) (r : Option RecordingRow) : RetryTarget :=
  { zoomRecordingId := r.map (·.zoomRecordingId),
    meetingId := some m.id,
    zoomMeetingId := some m.zoomMeetingId,
    courseIdMoodle := some m.courseIdMoodle,
    topic := some m.topic,
    recording := r,
    meeting := some m }

/-- Source `resolveRetryTargets(dto, limit)`: the four (non-exclusive) selector
branches, concatenated and cut to `limit`. -/
def resolveRetryTargets (env : PipeEnv) (st : PState) (dto : RetryDTO)
    (limit : Nat) : List RetryTarget × List Effect :=
  let t1 : List RetryTarget :=
    match dto.zoomRecordingId with
    | none => []
    | some zrid =>
      let recording := st.recordings.find? (fun r => r.zoomRecordingId == zrid)
      let meeting :=
        match recording with
        | some r => st.meetings.find? (fun m => m.id == r.meetingId)
        | none => none
      [{ zoomRecordingId := some zrid,
         recording := recording,
         meeting := meeting,
         meetingId := meeting.map (·.id),
         zoomMeetingId := meeting.map (·.zoomMeetingId),
         courseIdMoodle := meeting.map (·.courseIdMoodle),
         topic := meeting.map (·.topic) }]
  let t2 : List RetryTarget :=
    match dto.meetingId with
    | none => []
    | some mid =>
      match st.meetings.find? (fun m => m.id == mid) with
      | none => []
      | some m =>
        let recs := st.recordings.filter (fun r => r.meetingId == mid)
        if recs.isEmpty then [targetOfMeetingRec m none]
        else recs.map (fun r => targetOfMeetingRec m (some r))
  let t3 : List RetryTarget × List Effect :=
    match dto.zoomMeetingId with
    | none => ([], [])
    | some z =>
      match st.meetings.find? (fun m => m.zoomMeetingId == z) with
      | some m =>
        let recs := st.recordings.filter (fun r => r.meetingId == m.id)
        (if recs.isEmpty then [targetOfMeetingRec m none]
         else recs.map (fun r => targetOfMeetingRec m (some r)), [])
      | none =>
        match env.zoomTopicFor z with
        | some topic =>
          ([{ zoomMeetingId := some z, topic := some topic }], [.zoomApiGet z])
        | none => ([], [.zoomApiGet z])
  let t4 : List RetryTarget :=
    match dto.fromTs, dto.toTs with
    | some a, some b =>
      ((st.recordings.filter
          (fun r => decide (a ≤ r.createdAt) && decide (r.createdAt ≤ b))).take
        limit).map (fun r =>
          let meeting := st.meetings.find? (fun m => m.id == r.meetingId)
          { zoomRecordingId := some r.zoomRecordingId,
            recording := some r,
            meeting := meeting,
            meetingId := meeting.map (·.id),
            zoomMeetingId := meeting.map (·.zoomMeetingId),
            courseIdMoodle := meeting.map (·.courseIdMoodle),
            topic := meeting.map (·.topic) })
    | _, _ => []
  ((t1 ++ t2 ++ t3.1 ++ t4).take limit, t3.2)

/-- Source `determineRetryMode(target, dto)`. -/
def determineRetryMode (target : RetryTarget) (dto : RetryDTO) : String :=
  if dto.forceRedownload then "full"
  else if dto.republish &&
      (match target.recording with
       | some r => r.driveUrl != ""
       | none => false) then "republish"
  else "full"

/-- Source `recRepo.update(id, {retryCount: n+1, lastRetryAt})`. -/
def bumpRetryCount (recs : List RecordingRow) (id : String) (ts : Nat) :
    List RecordingRow :=
  recs.map (fun r =>
    if r.id == id then
      { r with retryCount := r.retryCount + 1, lastRetryAt := some ts }
    else r)

/-- Source `recRepo.save(recording)` of `executeFullMode`: update the Drive URL
of an existing row. -/
def setRecordingUrl (recs : List RecordingRow) (id link : String) :
    List RecordingRow :=
  recs.map (fun r => if r.id == id then { r with driveUrl := link } else r)

/-- Source `executeRepublishMode(target, courseIdMoodle, dto, selector)`. -/
def executeRepublishMode (env : PipeEnv) (st : PState) (target : RetryTarget) :
    RetryResultM × PState × List Effect :=
  match target.recording with
  | some recording =>
    if recording.driveUrl == "" then
      ({ mode := "republish", status := "failed", reason := "no-drive-url-found" },
       st, [])
    else
      match env.forumId with
      | none =>
        ({ mode := "republish", status := "failed",
           reason := "forum-lookup-failed" }, st, [.moodleForumQuery])
      | some _ =>
        let subject :=
          forumSubject target.topic env.today (target.zoomRecordingId.getD "unknown")
        if !env.forumPostOk then
          ({ mode := "republish", status := "failed",
             reason := "forum-post-failed" }, st,
           [.moodleForumQuery, .moodleForumPost subject])
        else
          ({ mode := "republish", status := "ok",
             reason := "republished-successfully" },
           { st with recordings := bumpRetryCount st.recordings recording.id env.nowTs },
           [.moodleForumQuery, .moodleForumPost subject,
            .updateRecordingRetry recording.id])
  | none =>
    ({ mode := "republish", status := "failed", reason := "no-drive-url-found" },
     st, [])

/-- Inner body of `executeFullMode` inside its file lock: download,
validation, Drive folders, upload under the semaphore, verification,
forum post (`Grabación disponible: <topic>`), Recording save
(insert-or-update), cleanup. -/
def fullModeBody (env : PipeEnv) (st : PState) (target : RetryTarget)
    (meetingId : String) (zrid : String) (mp4 : RecFile) (downloadPath : String) :
    RetryResultM × PState × List Effect :=
  if !env.downloadOk then
    ({ mode := "full", status := "failed",
       reason := "full-mode-error: download" }, st,
     [.httpDownload mp4.download_url])
  else
    let fx1 : List Effect :=
      [.httpDownload mp4.download_url, .driveEnsureFolder, .driveEnsureFolder]
    let stAcq := { st with semActive := st.semActive + 1 }
    let stRel := { stAcq with semActive := stAcq.semActive - 1 }
    match env.uploadResult with
    | none =>
      ({ mode := "full", status := "failed",
         reason := "full-mode-error: upload" }, stRel,
       fx1 ++ [.driveUpload downloadPath])
    | some link =>
      let fx2 := fx1 ++ [.driveUpload downloadPath, .driveListQuery, .driveListQuery]
      match env.forumId with
      | none =>
        ({ mode := "full", status := "failed",
           reason := "full-mode-error: forum-lookup" }, stRel,
         fx2 ++ [.moodleForumQuery])
      | some _ =>
        let subject := "Grabación disponible: " ++ (target.topic.getD "")
        if !env.forumPostOk then
          ({ mode := "full", status := "failed",
             reason := "full-mode-error: forum-post" }, stRel,
           fx2 ++ [.moodleForumQuery, .moodleForumPost subject])
        else
          let (recs, fxSave) : List RecordingRow × List Effect :=
            match target.recording with
            | some r =>
              (setRecordingUrl stRel.recordings r.id link,
               [Effect.updateRecordingUrl r.id])
            | none =>
              (stRel.recordings ++
                [{ id := env.newRecordingId, meetingId := meetingId,
                   zoomRecordingId := zrid, driveUrl := link }],
               [Effect.insertRecording zrid])
          ({ mode := "full", status := "ok",
             reason := "full-processing-completed" },
           { stRel with recordings := recs },
           fx2 ++ [.moodleForumQuery, .moodleForumPost subject] ++ fxSave ++
             [.deleteLocal downloadPath])

/-- Source `executeFullMode(target, courseIdMoodle, dto, selector)`. -/
def executeFullMode (env : PipeEnv) (st : PState) (target : RetryTarget) :
    RetryResultM × PState × List Effect :=
  let zoomMeetingId :=
    match target.meeting with
    | some m => m.zoomMeetingId
    | none => target.zoomMeetingId.getD ""
  let meetingId :=
    match target.meeting with
    | some m => m.id
    | none => target.meetingId.getD ""
  if zoomMeetingId == "" then
    ({ mode := "full", status := "failed",
       reason := "full-mode-error: No zoomMeetingId found for full mode processing" },
     st, [])
  else
    match env.zoomFilesFor zoomMeetingId with
    | none =>
      ({ mode := "full", status := "failed",
         reason := "full-mode-error: Recording not found in Zoom" }, st,
       [.zoomApiGet zoomMeetingId])
    | some files =>
      match selectMp4Full files with
      | none =>
        ({ mode := "full", status := "failed",
           reason := "full-mode-error: MP4 file not found in Zoom recording" },
         st, [.zoomApiGet zoomMeetingId])
      | some mp4 =>
        let downloadPath :=
          "/app/downloads/" ++ zoomMeetingId ++ "_" ++ mp4.id ++ ".mp4"
        let (out, st1, fx1) := withFileLockRun downloadPath st
          (fun stL => fullModeBody env stL target meetingId (recFileId mp4) mp4
            downloadPath)
        (out, st1, [.zoomApiGet zoomMeetingId] ++ fx1)

/-- First block of `processRetryTarget`: when the target has no Meeting
row but carries a provider meeting id and a topic, synthesize the
Meeting through `resolveExternalMeetingFromTopic` (its failures are
swallowed).  In the source this runs BEFORE the `dryRun` check. -/
def retrySynthStep (env : PipeEnv) (st : PState) (target : RetryTarget) :
    RetryTarget × PState × List Effect :=
  if target.meeting.isNone && target.zoomMeetingId.isSome &&
      target.topic.isSome then
    match resolveExternalMeetingFromTopic env st
        (target.zoomMeetingId.getD "") target.topic with
    | (some m, st1, fx) =>
      ({ target with meeting := some m, meetingId := some m.id,
                     courseIdMoodle := some m.courseIdMoodle }, st1, fx)
    | (none, st1, fx) => (target, st1, fx)
  else (target, st, [])

/-- Source `processRetryTarget(target, dto)`. -/
def processRetryTarget (env : PipeEnv) (st : PState) (dto : RetryDTO)
    (target : RetryTarget) : RetryResultM × PState × List Effect :=
  let (target, st, fx0) := retrySynthStep env st target
  if dto.dryRun then
    ({ mode := "skipped", status := "skipped", reason := "dry-run" }, st, fx0)
  else
    let course0 :=
      match dto.overrideCourseIdMoodle with
      | some c => some c
      | none => target.courseIdMoodle
    let (course1, target, st, fx1) :
        Option Nat × RetryTarget × PState × List Effect :=
      match course0, target.topic with
      | none, some _ =>
        let (resolved, st1, fx) := resolveExternalMeetingFromTopic env st
          (target.zoomMeetingId.getD "manual-retry") target.topic
        match resolved with
        | some m =>
          (some m.courseIdMoodle,
           { target with meeting := some m, meetingId := some m.id },
           st1, fx0 ++ fx)
        | none => (none, target, st1, fx0 ++ fx)
      | c, _ => (c, target, st, fx0)
    match course1 with
    | none =>
      ({ mode := "skipped", status := "failed", reason := "no-course-resolved" },
       st, fx1)
    | some _ =>
      let hasUrl :=
        match target.recording with
        | some r => r.driveUrl != ""
        | none => false
      if hasUrl && !dto.forceRedownload && !dto.forceRepost then
        if dto.republish then
          let (res, st2, fx2) := executeRepublishMode env st target
          (res, st2, fx1 ++ fx2)
        else
          ({ mode := "skipped", status := "skipped",
             reason := "already-completed" }, st, fx1)
      else
        if determineRetryMode target dto == "republish" then
          let (res, st2, fx2) := executeRepublishMode env st target
          (res, st2, fx1 ++ fx2)
        else
          let (res, st2, fx2) := executeFullMode env st target
          (res, st2, fx1 ++ fx2)

/-- The per-target loop of `manualRetry` (the `retryGuard` is set before
and deleted after each sequential `await`, so in this single-threaded
embedding it never triggers `already-in-progress`). -/
def manualRetryLoop (env : PipeEnv) (dto : RetryDTO) :
    List RetryTarget → List RetryResultM × PState × List Effect →
    List RetryResultM × PState × List Effect
  | [], acc => acc
  | t :: ts, (rs, st, fx) =>
    let (r, st1, fx1) := processRetryTarget env st dto t
    manualRetryLoop env dto ts (rs ++ [r], st1, fx ++ fx1)

/-- Source `manualRetry(dto)`: resolve targets (bounded by `limit`, default 5),
then process each in order. -/
def manualRetry (env : PipeEnv) (st : PState) (dto : RetryDTO) :
    List RetryResultM × PState × List Effect :=
  let limit := dto.limit.getD 5
  let (targets, fxR) := resolveRetryTargets env st dto limit
  manualRetryLoop env dto targets ([], st, fxR)

/-! ## Theorems -/

/-! ### Retry / backoff policy -/

/-- The attempt number of the last call made by the retry loop never
exceeds `attempt + fuel - 1`. -/
theorem runRetriesAux_last_attempt {T : Type} (outcomes : Nat → Except String T) :
    ∀ fuel attempt, (runRetriesAux outcomes attempt fuel).2 ≤ attempt + fuel - 1 := by
  intro fuel
  induction fuel with
  | zero => intro attempt; simp [runRetriesAux]
  | succ n ih =>
    intro attempt
    simp only [runRetriesAux]
    cases outcomes attempt with
    | ok v => simp
    | error e =>
      by_cases h : n = 0
      · simp [h]
      · have := ih (attempt + 1)
        simp only [h, if_false]
        omega

/-- C10: for every attempt index, base, max and jitter draw, the
computed delay is clamped at `max` and is at least
`min(max, base * 2^attempt)`. -/
theorem backoffWithJitter_bounds (attempt base mx jitter : Nat)
    (hb : 0 < base) (hm : base ≤ mx) :
    backoffWithJitter attempt base mx jitter ≤ mx ∧
    Nat.min mx (base * 2 ^ attempt) ≤ backoffWithJitter attempt base mx jitter := by
  constructor
  · exact Nat.min_le_left mx (Nat.min mx (base * 2 ^ attempt) + jitter)
  · exact Nat.le_min.mpr
      ⟨Nat.min_le_left mx (base * 2 ^ attempt),
       Nat.le_add_right (Nat.min mx (base * 2 ^ attempt)) jitter⟩

/-- Witness for `backoffWithJitter_bounds` at attempt 3 with the default
base and max. -/
theorem backoffWithJitter_bounds_witness :
    backoffWithJitter 3 30000 300000 17 ≤ 300000 ∧
    Nat.min 300000 (30000 * 2 ^ 3) ≤ backoffWithJitter 3 30000 300000 17 :=
  backoffWithJitter_bounds 3 30000 300000 17 (by decide) (by decide)

/-- C8 counterexample: at attempt 4 with the default base (30 s) and max
(300 s) and the valid jitter draw 1 (the jitter bound `exp/5` is 60000),
the code returns 300000 while the spec formula
`min(MAX, BASE * 2^attempt) + U[0, 0.2 * exp)` gives 300001: the code
clamps the jittered total at MAX, the spec formula does not. -/
theorem backoff_spec_formula_counterexample :
    backoffWithJitter 4 30000 300000 1 = 300000 ∧
    specBackoffDelay 4 30000 300000 1 = 300001 ∧
    1 < Nat.min 300000 (30000 * 2 ^ 4) / 5 := by decide

/-- C8 (amended): the delay is the spec formula CLAMPED at max,
`delay = min(MAX, min(MAX, BASE * 2^attempt) + jitter)`, and with the
default configuration both the download and the upload label are
bounded at 10 attempts. -/
theorem backoff_clamped_formula_and_attempt_bounds :
    (∀ attempt base mx jitter : Nat,
        backoffWithJitter attempt base mx jitter
          = Nat.min mx (specBackoffDelay attempt base mx jitter)) ∧
    maxAttemptsFor "download" = 10 ∧ maxAttemptsFor "upload" = 10 ∧
    ∀ (label : String) (outcomes : Nat → Except String Nat),
      (withRobustRetries (maxAttemptsFor label) outcomes).2 ≤ 10 := by
  refine ⟨fun a b m j => rfl, rfl, rfl, ?_⟩
  intro label o
  have h := runRetriesAux_last_attempt o (maxAttemptsFor label) 1
  have hup : maxAttemptsFor label ≤ 10 := by
    unfold maxAttemptsFor MAX_RETRIES_DOWNLOAD MAX_RETRIES_UPLOAD
    split <;> omega
  unfold withRobustRetries
  omega

/-! ### Resumable uploader chunk loop -/

/-- C6: handling of 308 responses in the PUT loop.  With a parsable
`Range: bytes=0-K` header the next offset is `K+1` and the no-Range
counter resets; without a Range header the same offset is retried with
the counter incremented, and the fifth consecutive such response throws
the stuck-308 error; finally, a concrete trace of five 308-without-Range
responses ends in the stuck-308 failure. -/
theorem upload_308_handling :
    (∀ (chunkSize total offset count k : Nat) (rest : List UploadResp) (s : String),
        offset < total → parseRangeEnd s = some k →
        uploadChunkLoop chunkSize total
            ({ status := 308, range := some s } :: rest) offset count
          = uploadChunkLoop chunkSize total rest (k + 1) 0) ∧
    (∀ (chunkSize total offset count : Nat) (rest : List UploadResp),
        offset < total → count + 1 < 5 →
        uploadChunkLoop chunkSize total
            ({ status := 308, range := none } :: rest) offset count
          = uploadChunkLoop chunkSize total rest offset (count + 1)) ∧
    (∀ (chunkSize total offset count : Nat) (rest : List UploadResp),
        offset < total → 5 ≤ count + 1 →
        uploadChunkLoop chunkSize total
            ({ status := 308, range := none } :: rest) offset count
          = .stuck308) ∧
    uploadChunkLoop 32 100
      (List.replicate 5 { status := 308, range := none }) 0 0 = .stuck308 := by
  refine ⟨?_, ?_, ?_, by decide⟩
  · intro chunkSize total offset count k rest s hlt hk
    rw [uploadChunkLoop]
    simp [Nat.not_le.mpr hlt, hk]
  · intro chunkSize total offset count rest hlt hc
    rw [uploadChunkLoop]
    simp [Nat.not_le.mpr hlt, Nat.not_le.mpr hc]
  · intro chunkSize total offset count rest hlt hc
    rw [uploadChunkLoop]
    simp [Nat.not_le.mpr hlt, hc]

/-- Witness for `upload_308_handling` at concrete inputs, including the
parse of the literal header `bytes=0-12345`. -/
theorem upload_308_handling_witness :
    (uploadChunkLoop 32 100 [{ status := 308, range := some "bytes=0-12345" }] 0 0
      = uploadChunkLoop 32 100 [] 12346 0) ∧
    (uploadChunkLoop 32 100 [{ status := 308, range := none }] 0 0
      = uploadChunkLoop 32 100 [] 0 1) ∧
    uploadChunkLoop 32 100 [{ status := 308, range := none }] 0 4 = .stuck308 :=
  ⟨upload_308_handling.1 32 100 0 0 12345 [] "bytes=0-12345" (by decide) (by decide),
   upload_308_handling.2.1 32 100 0 0 [] (by decide) (by decide),
   upload_308_handling.2.2.1 32 100 0 4 [] (by decide) (by decide)⟩

/-! ### Webhook admission -/

/-- C7: for every request with event `endpoint.url_validation` and a
configured secret, the handler answers
`{plainToken, encryptedToken = hmacSha256Hex(secret, plainToken)}`.  The
timestamp and signature headers are universally quantified and absent
from the response: no signature verification takes part in this event
type. -/
theorem url_validation_handshake (hmacHex : String → String → String)
    (secret : String) (bypass : Bool) (t rawBody timestamp signature : String)
    (hsecret : secret ≠ "") :
    handleWebhook hmacHex secret bypass "endpoint.url_validation" (some t)
      rawBody timestamp signature = .validation t (hmacHex secret t) := by
  simp [handleWebhook, hsecret]

/-- Witness for `url_validation_handshake`: the concrete scenario of the
spec (`plainToken = "abc"`, secret `"s"`). -/
theorem url_validation_handshake_witness :
    handleWebhook (fun k m => k ++ "|" ++ m) "s" false "endpoint.url_validation"
      (some "abc") "" "ts" "sig" = .validation "abc" "s|abc" :=
  url_validation_handshake (fun k m => k ++ "|" ++ m) "s" false "abc" "" "ts" "sig"
    (by decide)

/-! ### Resumable downloader -/

/-- A fresh (non-append) successful write stores exactly the response
body. -/
theorem handleDownloadResponse_fresh_ok (res : DlResponse)
    (expected : Option Nat) (content : List Nat)
    (h : handleDownloadResponse res none false expected = .ok content) :
    content = res.body := by
  unfold handleDownloadResponse at h
  split at h
  · split at h <;> simp_all
  · split at h
    · simp_all
    · simp_all

/-- C5: when the request that carried `Range: bytes=N-` (for a local
partial file of N > 0 bytes) is answered 200, the partial file is
deleted and the request is reissued from byte 0, so a successful result
is exactly the body of the fresh response — a full-body 200 is never
appended.  When the answer is 206 instead, the body is appended to the
existing N bytes. -/
theorem download_200_on_range_restarts_fresh (env : DlEnv) (c : List Nat)
    (expected : Option Nat) (hne : c ≠ []) :
    ((env.serve 0 c.length).status = 200 →
      downloadZoomRecording env (some c) expected
        = handleDownloadResponse (env.serve 1 0) none false expected ∧
      ∀ content, downloadZoomRecording env (some c) expected = .ok content →
        content = (env.serve 1 0).body) ∧
    ((env.serve 0 c.length).status = 206 →
      downloadZoomRecording env (some c) expected
        = .ok (c ++ (env.serve 0 c.length).body)) := by
  have hpos : 0 < c.length := List.length_pos.mpr hne
  constructor
  · intro h200
    have heq : downloadZoomRecording env (some c) expected
        = handleDownloadResponse (env.serve 1 0) none false expected := by
      unfold downloadZoomRecording
      simp [h200, hpos]
    refine ⟨heq, fun content hok => ?_⟩
    exact handleDownloadResponse_fresh_ok _ _ _ (heq ▸ hok)
  · intro h206
    unfold downloadZoomRecording handleDownloadResponse
    simp [h206, hpos]

/-- Witness for `download_200_on_range_restarts_fresh`: a server that
ignores the range request with a 200 makes the final file equal to the
body of the restarted request, and a 206 server gets its body appended. -/
theorem download_200_witness :
    (downloadZoomRecording
        { serve := fun i r =>
            if i == 0 && r == 2 then { status := 200, body := [9, 9] }
            else if i == 1 && r == 0 then { status := 200, body := [1, 2, 3] }
            else { status := 500 },
          useWebhookToken := true } (some [7, 7]) none = .ok [1, 2, 3]) ∧
    (downloadZoomRecording
        { serve := fun i r =>
            if i == 0 && r == 2 then { status := 206, body := [9] }
            else { status := 500 },
          useWebhookToken := true } (some [7, 7]) none = .ok [7, 7, 9]) :=
  ⟨(((download_200_on_range_restarts_fresh _ [7, 7] none (by decide)).1
      (by decide)).1).trans (by rfl),
   (download_200_on_range_restarts_fresh _ [7, 7] none (by decide)).2 (by decide)⟩

/-! ### MP4 file selection -/

theorem mp4Le_iff (a b : RecFile) : mp4Le a b = true ↔
    (prefWeight a = prefWeight b ∧ b.file_size ≤ a.file_size) ∨
    (prefWeight a ≠ prefWeight b ∧ prefWeight a < prefWeight b) := by
  unfold mp4Le
  by_cases h : prefWeight a = prefWeight b
  · simp [h]
  · simp [h]

theorem mp4Le_refl (a : RecFile) : mp4Le a a = true := by
  simp [mp4Le]

theorem mp4Le_total (a b : RecFile) : (mp4Le a b || mp4Le b a) = true := by
  simp only [Bool.or_eq_true, mp4Le_iff]
  omega

theorem mp4Le_trans (a b c : RecFile) (h1 : mp4Le a b = true)
    (h2 : mp4Le b c = true) : mp4Le a c = true := by
  rw [mp4Le_iff] at h1 h2 ⊢
  omega

/-- Head of the full-mode sort: an element of the candidate set that the
comparator places at or before every other candidate. -/
theorem selectMp4Full_spec (files : List RecFile) (f : RecFile)
    (h : selectMp4Full files = some f) :
    f ∈ files ∧ isFullModeCandidate f = true ∧
    ∀ g ∈ files, isFullModeCandidate g = true → mp4Le f g = true := by
  haveI htotal : IsTotal RecFile mp4LeRel :=
    ⟨fun a b => by
      have := mp4Le_total a b
      simpa [mp4LeRel, Bool.or_eq_true] using this⟩
  haveI htrans : IsTrans RecFile mp4LeRel :=
    ⟨fun a b c => mp4Le_trans a b c⟩
  unfold selectMp4Full at h
  have hperm : (List.insertionSort mp4LeRel (files.filter isFullModeCandidate)).Perm
      (files.filter isFullModeCandidate) := List.perm_insertionSort _ _
  have hsorted := List.sorted_insertionSort mp4LeRel
    (files.filter isFullModeCandidate)
  cases hl : List.insertionSort mp4LeRel (files.filter isFullModeCandidate) with
  | nil => rw [hl] at h; simp at h
  | cons x t =>
    rw [hl] at h hperm hsorted
    have hfx : f = x := by simpa using h.symm
    subst hfx
    have hmem : f ∈ files.filter isFullModeCandidate :=
      hperm.mem_iff.mp (List.mem_cons_self f t)
    have hmemf := List.mem_filter.mp hmem
    refine ⟨hmemf.1, hmemf.2, fun g hg hgc => ?_⟩
    have hgmem : g ∈ f :: t :=
      hperm.mem_iff.mpr (List.mem_filter.mpr ⟨hg, hgc⟩)
    rcases List.mem_cons.mp hgmem with hgf | hgt
    · subst hgf; exact mp4Le_refl g
    · exact (List.pairwise_cons.mp hsorted).1 g hgt

/-- Lemma that `find?` returns the FIRST satisfying element. -/
theorem find?_some_split {α : Type} (p : α → Bool) :
    ∀ (l : List α) (a : α), l.find? p = some a →
      p a = true ∧ ∃ l1 l2, l = l1 ++ a :: l2 ∧ ∀ x ∈ l1, p x = false := by
  intro l
  induction l with
  | nil => intro a h; simp at h
  | cons b t ih =>
    intro a h
    rw [List.find?_cons] at h
    cases hb : p b with
    | true =>
      rw [hb] at h
      simp only [Option.some.injEq] at h
      subst h
      exact ⟨hb, [], t, rfl, by simp⟩
    | false =>
      rw [hb] at h
      obtain ⟨hp, l1, l2, heq, hfirst⟩ := ih a h
      refine ⟨hp, b :: l1, l2, by rw [heq, List.cons_append], ?_⟩
      intro x hx
      rcases List.mem_cons.mp hx with hxb | hxl
      · subst hxb; exact hb
      · exact hfirst x hxl

/-- C4 counterexample: two MP4 files, both completed with a download
URL; the first in list order is a small `gallery_view`, the second a
large `shared_screen_with_speaker_view`.  The selection the spec
describes picks the shared-screen file, but the webhook path picks the
gallery file (it takes the first match in list order, with no
recording-type preference and no size tie-break). -/
theorem webhook_selection_ignores_preference_counterexample :
    selectMp4Webhook
      [{ id := "g1", file_type := "MP4", download_url := "u",
         status := "completed", recording_type := "gallery_view",
         file_size := 10 },
       { id := "s1", file_type := "MP4", download_url := "u",
         status := "completed",
         recording_type := "shared_screen_with_speaker_view",
         file_size := 99 }]
      ≠
    specClaimSelect
      [{ id := "g1", file_type := "MP4", download_url := "u",
         status := "completed", recording_type := "gallery_view",
         file_size := 10 },
       { id := "s1", file_type := "MP4", download_url := "u",
         status := "completed",
         recording_type := "shared_screen_with_speaker_view",
         file_size := 99 }] ∧
    (selectMp4Webhook
      [{ id := "g1", file_type := "MP4", download_url := "u",
         status := "completed", recording_type := "gallery_view",
         file_size := 10 },
       { id := "s1", file_type := "MP4", download_url := "u",
         status := "completed",
         recording_type := "shared_screen_with_speaker_view",
         file_size := 99 }]).map (·.id) = some "g1" ∧
    (specClaimSelect
      [{ id := "g1", file_type := "MP4", download_url := "u",
         status := "completed", recording_type := "gallery_view",
         file_size := 10 },
       { id := "s1", file_type := "MP4", download_url := "u",
         status := "completed",
         recording_type := "shared_screen_with_speaker_view",
         file_size := 99 }]).map (·.id) = some "s1" := by
  refine ⟨?_, by decide, by decide⟩
  decide

/-- C4 (amended): the full mode of the manual-retry engine picks a
completed MP4 (no download-URL requirement) that the preference-order /
size comparator places before every other completed MP4; the webhook
path instead picks the FIRST file in list order that is an MP4 with a
download URL and status (or recording-status) completed, falling back to
the first MP4 with a download URL when no file qualifies. -/
theorem mp4_selection_characterization :
    (∀ (files : List RecFile) (f : RecFile), selectMp4Full files = some f →
      f ∈ files ∧ isFullModeCandidate f = true ∧
      ∀ g ∈ files, isFullModeCandidate g = true → mp4Le f g = true) ∧
    (∀ (files : List RecFile) (f : RecFile), selectMp4Webhook files = some f →
      (isCompletedMp4 f = true ∧
        ∃ l1 l2, files = l1 ++ f :: l2 ∧ ∀ g ∈ l1, isCompletedMp4 g = false) ∨
      ((∀ g ∈ files, isCompletedMp4 g = false) ∧ isMp4WithUrl f = true ∧
        ∃ l1 l2, files = l1 ++ f :: l2 ∧ ∀ g ∈ l1, isMp4WithUrl g = false)) := by
  refine ⟨selectMp4Full_spec, ?_⟩
  intro files f h
  unfold selectMp4Webhook at h
  cases hfind : files.find? isCompletedMp4 with
  | some x =>
    rw [hfind] at h
    simp only [Option.orElse] at h
    have hfx : f = x := by simpa using h.symm
    subst hfx
    obtain ⟨hp, l1, l2, heq, hfirst⟩ := find?_some_split isCompletedMp4 files f hfind
    exact Or.inl ⟨hp, l1, l2, heq, hfirst⟩
  | none =>
    rw [hfind] at h
    simp only [Option.orElse] at h
    obtain ⟨hp, l1, l2, heq, hfirst⟩ := find?_some_split isMp4WithUrl files f h
    refine Or.inr ⟨?_, hp, l1, l2, heq, hfirst⟩
    intro g hg
    have := List.find?_eq_none.mp hfind g hg
    simpa using this

/-- Witness for `mp4_selection_characterization` on the two-file list of
the counterexample. -/
theorem mp4_selection_characterization_witness :
    (let g : RecFile :=
      { id := "g1", file_type := "MP4", download_url := "u",
        status := "completed", recording_type := "gallery_view",
        file_size := 10 }
     let s : RecFile :=
      { id := "s1", file_type := "MP4", download_url := "u",
        status := "completed",
        recording_type := "shared_screen_with_speaker_view",
        file_size := 99 }
     (s ∈ [g, s] ∧ isFullModeCandidate s = true ∧
       ∀ x ∈ [g, s], isFullModeCandidate x = true → mp4Le s x = true) ∧
     ((isCompletedMp4 g = true ∧
        ∃ l1 l2, [g, s] = l1 ++ g :: l2 ∧ ∀ x ∈ l1, isCompletedMp4 x = false) ∨
      ((∀ x ∈ [g, s], isCompletedMp4 x = false) ∧ isMp4WithUrl g = true ∧
        ∃ l1 l2, [g, s] = l1 ++ g :: l2 ∧ ∀ x ∈ l1, isMp4WithUrl x = false))) :=
  ⟨mp4_selection_characterization.1 _ _ (by decide),
   mp4_selection_characterization.2 _ _ (by decide)⟩

/-! ### Preview wakeup job -/

theorem updateWakeup_bound (recs : List RecordingRow) (id : String)
    (a ts : Nat) (ha : a ≤ 2)
    (h : ∀ r ∈ recs, r.driveWakeupAttempts ≤ 2) :
    ∀ r ∈ updateWakeup recs id a ts, r.driveWakeupAttempts ≤ 2 := by
  intro r hr
  simp only [updateWakeup, List.mem_map] at hr
  obtain ⟨x, hx, hmap⟩ := hr
  subst hmap
  split
  · exact ha
  · exact h x hx

theorem wakeupStep_bound (env : WakeupEnv) (recs : List RecordingRow)
    (rec : RecordingRow) (hrec : rec.driveWakeupAttempts < 2)
    (h : ∀ r ∈ recs, r.driveWakeupAttempts ≤ 2) :
    ∀ r ∈ wakeupStep env recs rec, r.driveWakeupAttempts ≤ 2 := by
  intro r hr
  unfold wakeupStep at hr
  split at hr
  · exact h r hr
  · split at hr
    · exact updateWakeup_bound _ _ _ _ (by omega) h r hr
    · split at hr
      · exact updateWakeup_bound _ _ _ _ (by omega) h r hr
      · split at hr
        · exact updateWakeup_bound _ _ _ _ (by omega) h r hr
        · exact updateWakeup_bound _ _ _ _ (by omega) h r hr

theorem wakeupFold_bound (env : WakeupEnv) :
    ∀ (sel recs : List RecordingRow),
      (∀ x ∈ sel, x.driveWakeupAttempts < 2) →
      (∀ r ∈ recs, r.driveWakeupAttempts ≤ 2) →
      ∀ r ∈ sel.foldl (wakeupStep env) recs, r.driveWakeupAttempts ≤ 2 := by
  intro sel
  induction sel with
  | nil => intro recs _ h; simpa using h
  | cons x t ih =>
    intro recs hsel h
    simp only [List.foldl_cons]
    exact ih _ (fun y hy => hsel y (List.mem_cons_of_mem x hy))
      (wakeupStep_bound env recs x (hsel x (List.mem_cons_self x t)) h)

/-- C9: the wakeup job only selects recordings with fewer than 2 wakeup
attempts, and — provided every row satisfies the invariant
`driveWakeupAttempts ≤ 2` before the run — every row still satisfies it
after the run (each update writes either the previous value plus one or
exactly 2). -/
theorem wakeupAttempts_le_two_invariant (env : WakeupEnv)
    (recs : List RecordingRow)
    (h : ∀ r ∈ recs, r.driveWakeupAttempts ≤ 2) :
    (∀ r ∈ wakeupSelect env recs, r.driveWakeupAttempts < 2) ∧
    ∀ r ∈ wakeupPreviews env recs, r.driveWakeupAttempts ≤ 2 := by
  have hsel : ∀ r ∈ wakeupSelect env recs, r.driveWakeupAttempts < 2 := by
    intro r hr
    have := (List.mem_filter.mp hr).2
    simp only [Bool.and_eq_true, decide_eq_true_eq] at this
    exact this.1.2
  exact ⟨hsel, wakeupFold_bound env _ recs hsel h⟩

/-- Witness for `wakeupAttempts_le_two_invariant` on a one-row table at
one attempt with a thumbnail-present, still-processing file. -/
theorem wakeupAttempts_le_two_invariant_witness :
    (∀ r ∈ wakeupSelect
        { fromTs := 0, toTs := 100, cutoff := 50, nowTs := 99,
          metaBefore := fun _ => some (true, "processing"),
          metaAfter := fun _ => some (true, "ready") }
        [{ id := "R1", meetingId := "M1", zoomRecordingId := "z",
           driveUrl := "https://drive.google.com/file/d/AA/view",
           createdAt := 5, driveWakeupAttempts := 1 }],
      r.driveWakeupAttempts < 2) ∧
    ∀ r ∈ wakeupPreviews
        { fromTs := 0, toTs := 100, cutoff := 50, nowTs := 99,
          metaBefore := fun _ => some (true, "processing"),
          metaAfter := fun _ => some (true, "ready") }
        [{ id := "R1", meetingId := "M1", zoomRecordingId := "z",
           driveUrl := "https://drive.google.com/file/d/AA/view",
           createdAt := 5, driveWakeupAttempts := 1 }],
      r.driveWakeupAttempts ≤ 2 :=
  wakeupAttempts_le_two_invariant _ _ (by decide)

/-! ### Pipeline coordinator: idempotent replay (webhook) -/

/-- C1: when the selected MP4 file id already has a Recording row, the
webhook pipeline returns `done` with the stored Drive URL of that row;
the only effects are the meeting-status update and the license release —
no download, no upload, no forum post, no Recording insert — and the
recordings table (hence the at-most-one-row-per-file-id invariant) and
all guards are exactly as before the call. -/
theorem processRecordingCompleted_idempotent_on_existing_row
    (env : PipeEnv) (st : PState) (p : Payload) (m : MeetingRow)
    (mp4 : RecFile) (r : RecordingRow)
    (hid : p.zoomMeetingId ≠ "")
    (hfiles : p.recording_files ≠ [])
    (hinflight : st.inFlight.contains p.zoomMeetingId = false)
    (hmeet : st.meetings.find?
      (fun mm => mm.zoomMeetingId == p.zoomMeetingId) = some m)
    (hmp4 : selectMp4Webhook p.recording_files = some mp4)
    (hrow : st.recordings.find?
      (fun rr => rr.zoomRecordingId == recFileId mp4) = some r) :
    processRecordingCompleted env st p =
      (.done r.driveUrl,
       { st with meetings := markMeetingCompleted st.meetings m.id },
       [.updateMeetingStatus m.id, .releaseLicense m.id]) := by
  have h1 : (p.zoomMeetingId == "") = false := by
    simpa using hid
  have h2 : p.recording_files.isEmpty = false := by
    cases hp : p.recording_files with
    | nil => exact absurd hp hfiles
    | cons a t => rfl
  unfold processRecordingCompleted processBody processAfterMeeting
  simp only [h1, h2, Bool.or_self, Bool.false_eq_true, if_false, hinflight,
    hmeet, hmp4, hrow, List.erase_cons_head, List.nil_append]

/-- Witness for `processRecordingCompleted_idempotent_on_existing_row`:
replay of a completed webhook whose Recording row is in the table. -/
theorem processRecordingCompleted_idempotent_witness :
    processRecordingCompleted
      { resolveCourse := fun _ => none }
      { meetings := [{ id := "M1", zoomMeetingId := "94881330838",
                       topic := "Mate", courseIdMoodle := 13,
                       status := "scheduled" }],
        recordings := [{ id := "R1", meetingId := "M1",
                         zoomRecordingId := "abc123",
                         driveUrl := "https://drive/abc/view" }] }
      { zoomMeetingId := "94881330838", topic := some "Mate",
        recording_files := [{ id := "abc123", file_type := "MP4",
                              download_url := "u", status := "completed" }] }
      = (.done "https://drive/abc/view",
         { meetings := markMeetingCompleted
             [{ id := "M1", zoomMeetingId := "94881330838", topic := "Mate",
                courseIdMoodle := 13, status := "scheduled" }] "M1",
           recordings := [{ id := "R1", meetingId := "M1",
                            zoomRecordingId := "abc123",
                            driveUrl := "https://drive/abc/view" }] },
         [.updateMeetingStatus "M1", .releaseLicense "M1"]) :=
  processRecordingCompleted_idempotent_on_existing_row
    { resolveCourse := fun _ => none }
    { meetings := [{ id := "M1", zoomMeetingId := "94881330838",
                     topic := "Mate", courseIdMoodle := 13,
                     status := "scheduled" }],
      recordings := [{ id := "R1", meetingId := "M1",
                       zoomRecordingId := "abc123",
                       driveUrl := "https://drive/abc/view" }] }
    { zoomMeetingId := "94881330838", topic := some "Mate",
      recording_files := [{ id := "abc123", file_type := "MP4",
                            download_url := "u", status := "completed" }] }
    { id := "M1", zoomMeetingId := "94881330838", topic := "Mate",
      courseIdMoodle := 13, status := "scheduled" }
    { id := "abc123", file_type := "MP4", download_url := "u",
      status := "completed" }
    { id := "R1", meetingId := "M1", zoomRecordingId := "abc123",
      driveUrl := "https://drive/abc/view" }
    (by decide) (by decide) (by decide) (by decide) (by decide) (by decide)

/-! ### In-flight guard release -/

/-- C3: in the legacy variant of `processRecordingCompleted`, a payload
whose meeting is known but whose file list contains no MP4 returns
`ignored` while leaving the provider meeting id in `inFlightMeetings`
forever (the return sits before the `try/finally`); the current variant
releases the id on the same input. -/
theorem legacy_noMp4_leaves_inflight_held :
    (processRecordingCompletedLegacy
      { resolveCourse := fun _ => none }
      { meetings := [{ id := "M1", zoomMeetingId := "94881330838",
                       topic := "Mate", courseIdMoodle := 13,
                       status := "scheduled" }],
        recordings := [] }
      { zoomMeetingId := "94881330838", topic := some "Mate",
        recording_files := [{ id := "c1", file_type := "CHAT",
                              download_url := "u",
                              status := "completed" }] }).1 = .ignored ∧
    (processRecordingCompletedLegacy
      { resolveCourse := fun _ => none }
      { meetings := [{ id := "M1", zoomMeetingId := "94881330838",
                       topic := "Mate", courseIdMoodle := 13,
                       status := "scheduled" }],
        recordings := [] }
      { zoomMeetingId := "94881330838", topic := some "Mate",
        recording_files := [{ id := "c1", file_type := "CHAT",
                              download_url := "u",
                              status := "completed" }] }).2.1.inFlight
      = ["94881330838"] ∧
    (processRecordingCompleted
      { resolveCourse := fun _ => none }
      { meetings := [{ id := "M1", zoomMeetingId := "94881330838",
                       topic := "Mate", courseIdMoodle := 13,
                       status := "scheduled" }],
        recordings := [] }
      { zoomMeetingId := "94881330838", topic := some "Mate",
        recording_files := [{ id := "c1", file_type := "CHAT",
                              download_url := "u",
                              status := "completed" }] }).2.1.inFlight
      = [] := by
  refine ⟨by decide, by decide, by decide⟩

/-- Guard bookkeeping of the course-resolution step: it never touches
the in-flight set, the path locks or the semaphore. -/
theorem resolveExternal_guards (env : PipeEnv) (st : PState) (z : String)
    (topic : Option String) :
    (resolveExternalMeetingFromTopic env st z topic).2.1.inFlight = st.inFlight ∧
    (resolveExternalMeetingFromTopic env st z topic).2.1.fileLocks = st.fileLocks ∧
    (resolveExternalMeetingFromTopic env st z topic).2.1.semActive = st.semActive := by
  unfold resolveExternalMeetingFromTopic
  split
  · exact ⟨rfl, rfl, rfl⟩
  · split
    · exact ⟨rfl, rfl, rfl⟩
    · exact ⟨rfl, rfl, rfl⟩

/-- Guard bookkeeping of the locked pipeline body: the semaphore is
released on success and on every failure, and neither the in-flight set
nor the lock map is touched. -/
theorem fullPipelineBody_guards (env : PipeEnv) (st : PState) (p : Payload)
    (m : MeetingRow) (zrid : String) (mp4 : RecFile) (lp : String) :
    (fullPipelineBody env st p m zrid mp4 lp).2.1.inFlight = st.inFlight ∧
    (fullPipelineBody env st p m zrid mp4 lp).2.1.fileLocks = st.fileLocks ∧
    (fullPipelineBody env st p m zrid mp4 lp).2.1.semActive = st.semActive := by
  unfold fullPipelineBody
  iterate 6 (all_goals try split)
  all_goals exact ⟨rfl, rfl, rfl⟩

/-- Guard bookkeeping of `withFileLock`: if the body preserves the
guards, the wrapper releases the lock it registered, leaving all guards
as at entry. -/
theorem withFileLockRun_guards {α : Type} (lp : String) (st : PState)
    (body : PState → α × PState × List Effect)
    (hin : ∀ s, (body s).2.1.inFlight = s.inFlight)
    (hfl : ∀ s, (body s).2.1.fileLocks = s.fileLocks)
    (hsem : ∀ s, (body s).2.1.semActive = s.semActive) :
    (withFileLockRun lp st body).2.1.inFlight = st.inFlight ∧
    (withFileLockRun lp st body).2.1.fileLocks = st.fileLocks ∧
    (withFileLockRun lp st body).2.1.semActive = st.semActive := by
  unfold withFileLockRun
  rcases hb : body { st with fileLocks := lp :: st.fileLocks } with ⟨bout, bst, bfx⟩
  have h1 : bst.inFlight = st.inFlight := by
    have := hin { st with fileLocks := lp :: st.fileLocks }
    rw [hb] at this
    exact this
  have h2 : bst.fileLocks = lp :: st.fileLocks := by
    have := hfl { st with fileLocks := lp :: st.fileLocks }
    rw [hb] at this
    exact this
  have h3 : bst.semActive = st.semActive := by
    have := hsem { st with fileLocks := lp :: st.fileLocks }
    rw [hb] at this
    exact this
  refine ⟨h1, ?_, h3⟩
  show bst.fileLocks.erase lp = st.fileLocks
  rw [h2, List.erase_cons_head]

/-- Guard bookkeeping of the continuation after the Meeting is at
hand. -/
theorem processAfterMeeting_guards (env : PipeEnv) (st : PState)
    (p : Payload) (m : MeetingRow) (fx0 : List Effect) :
    (processAfterMeeting env st p m fx0).2.1.inFlight = st.inFlight ∧
    (processAfterMeeting env st p m fx0).2.1.fileLocks = st.fileLocks ∧
    (processAfterMeeting env st p m fx0).2.1.semActive = st.semActive := by
  simp only [processAfterMeeting]
  split
  · exact ⟨rfl, rfl, rfl⟩
  · split
    · exact ⟨rfl, rfl, rfl⟩
    · split
      · exact ⟨rfl, rfl, rfl⟩
      · exact withFileLockRun_guards _ st _
          (fun s => (fullPipelineBody_guards env s p m _ _ _).1)
          (fun s => (fullPipelineBody_guards env s p m _ _ _).2.1)
          (fun s => (fullPipelineBody_guards env s p m _ _ _).2.2)

/-- Guard bookkeeping of the whole `try` body of the current
`processRecordingCompleted`. -/
theorem processBody_guards (env : PipeEnv) (st : PState) (p : Payload) :
    (processBody env st p).2.1.inFlight = st.inFlight ∧
    (processBody env st p).2.1.fileLocks = st.fileLocks ∧
    (processBody env st p).2.1.semActive = st.semActive := by
  unfold processBody
  split
  · exact processAfterMeeting_guards env st p _ _
  · rcases hr : resolveExternalMeetingFromTopic env st p.zoomMeetingId p.topic
      with ⟨mOpt, st1, fx⟩
    have hg := resolveExternal_guards env st p.zoomMeetingId p.topic
    rw [hr] at hg
    cases mOpt with
    | none => exact hg
    | some m =>
      have hg2 := processAfterMeeting_guards env st1 p m fx
      exact ⟨hg2.1.trans hg.1, hg2.2.1.trans hg.2.1, hg2.2.2.trans hg.2.2⟩

/-- Every invocation of the current `processRecordingCompleted`, on
every outcome — ignored, in-flight, done or failed — returns with the
in-flight set, the file-lock map and the upload-semaphore count exactly
as at entry: the guards are always released. -/
theorem processRecordingCompleted_releases_guards (env : PipeEnv)
    (st : PState) (p : Payload) :
    (processRecordingCompleted env st p).2.1.inFlight = st.inFlight ∧
    (processRecordingCompleted env st p).2.1.fileLocks = st.fileLocks ∧
    (processRecordingCompleted env st p).2.1.semActive = st.semActive := by
  unfold processRecordingCompleted
  split
  · exact ⟨rfl, rfl, rfl⟩
  · split
    · exact ⟨rfl, rfl, rfl⟩
    · rcases hb : processBody env
          { st with inFlight := p.zoomMeetingId :: st.inFlight } p
        with ⟨out, st1, fx⟩
      have hg := processBody_guards env
        { st with inFlight := p.zoomMeetingId :: st.inFlight } p
      rw [hb] at hg
      have h1 : st1.inFlight = p.zoomMeetingId :: st.inFlight := hg.1
      refine ⟨?_, hg.2.1, hg.2.2⟩
      show st1.inFlight.erase p.zoomMeetingId = st.inFlight
      rw [h1, List.erase_cons_head]

/-! ### Manual retry: dry run -/

theorem resolveExternal_recordings_and_effects (env : PipeEnv) (st : PState)
    (z : String) (topic : Option String) :
    ∀ (mOpt : Option MeetingRow) (stx : PState) (fx : List Effect),
      resolveExternalMeetingFromTopic env st z topic = (mOpt, stx, fx) →
      stx.recordings = st.recordings ∧
      ∀ e ∈ fx, e = .moodleCoursePost ∨ e = .insertMeeting z := by
  intro mOpt stx fx h
  unfold resolveExternalMeetingFromTopic at h
  split at h
  · simp only [Prod.mk.injEq] at h
    obtain ⟨rfl, rfl, rfl⟩ := h
    exact ⟨rfl, by simp⟩
  · split at h
    · simp only [Prod.mk.injEq] at h
      obtain ⟨rfl, rfl, rfl⟩ := h
      refine ⟨rfl, fun e he => ?_⟩
      simp only [List.mem_singleton] at he
      exact Or.inl he
    · simp only [Prod.mk.injEq] at h
      obtain ⟨rfl, rfl, rfl⟩ := h
      refine ⟨rfl, fun e he => ?_⟩
      rcases List.mem_cons.mp he with rfl | he2
      · exact Or.inl rfl
      · simp only [List.mem_singleton] at he2
        exact Or.inr he2

theorem retrySynthStep_recordings_and_effects (env : PipeEnv) (st : PState)
    (target : RetryTarget) :
    (retrySynthStep env st target).2.1.recordings = st.recordings ∧
    ∀ e ∈ (retrySynthStep env st target).2.2,
      e = .moodleCoursePost ∨ ∃ z, e = .insertMeeting z := by
  unfold retrySynthStep
  split
  · split
    · rename_i m st1 fx heq
      have hspec := resolveExternal_recordings_and_effects env st
        (target.zoomMeetingId.getD "") target.topic (some m) st1 fx heq
      refine ⟨hspec.1, fun e he => ?_⟩
      rcases hspec.2 e he with h | h
      · exact Or.inl h
      · exact Or.inr ⟨_, h⟩
    · rename_i st1 fx heq
      have hspec := resolveExternal_recordings_and_effects env st
        (target.zoomMeetingId.getD "") target.topic none st1 fx heq
      refine ⟨hspec.1, fun e he => ?_⟩
      rcases hspec.2 e he with h | h
      · exact Or.inl h
      · exact Or.inr ⟨_, h⟩
  · exact ⟨rfl, by simp⟩

/-- With `dryRun` the per-target processing returns the dry-run record;
the recordings table is untouched and the only possible effects are the
Moodle course-lookup POSTs and a Meeting insert from the synthesis
step. -/
theorem processRetryTarget_dryRun (env : PipeEnv) (st : PState)
    (dto : RetryDTO) (target : RetryTarget) (hdry : dto.dryRun = true) :
    (processRetryTarget env st dto target).1
      = { mode := "skipped", status := "skipped", reason := "dry-run" } ∧
    (processRetryTarget env st dto target).2.1.recordings = st.recordings ∧
    ∀ e ∈ (processRetryTarget env st dto target).2.2,
      e = .moodleCoursePost ∨ ∃ z, e = .insertMeeting z := by
  have hspec := retrySynthStep_recordings_and_effects env st target
  unfold processRetryTarget
  rcases hsynth : retrySynthStep env st target with ⟨t1, st1, fx1⟩
  rw [hsynth] at hspec
  simp only [hdry, if_true]
  exact ⟨trivial, hspec.1, hspec.2⟩

theorem resolveRetryTargets_effects (env : PipeEnv) (st : PState)
    (dto : RetryDTO) (limit : Nat) :
    ∀ e ∈ (resolveRetryTargets env st dto limit).2,
      ∃ z, e = .zoomApiGet z := by
  intro e he
  unfold resolveRetryTargets at he
  iterate 6 (all_goals try split at he)
  all_goals first
    | (simp only [List.mem_singleton] at he; subst he; exact ⟨_, rfl⟩)
    | simp at he

theorem manualRetryLoop_dryRun (env : PipeEnv) (dto : RetryDTO)
    (hdry : dto.dryRun = true) :
    ∀ (targets : List RetryTarget) (rs : List RetryResultM) (st : PState)
      (fx : List Effect),
      (∀ res ∈ (manualRetryLoop env dto targets (rs, st, fx)).1,
        res ∈ rs ∨
        res = { mode := "skipped", status := "skipped", reason := "dry-run" }) ∧
      (manualRetryLoop env dto targets (rs, st, fx)).2.1.recordings
        = st.recordings ∧
      ∀ e ∈ (manualRetryLoop env dto targets (rs, st, fx)).2.2,
        e ∈ fx ∨ e = .moodleCoursePost ∨ ∃ z, e = .insertMeeting z := by
  intro targets
  induction targets with
  | nil =>
    intro rs st fx
    exact ⟨fun res hres => Or.inl hres, rfl, fun e he => Or.inl he⟩
  | cons t ts ih =>
    intro rs st fx
    have hstep := processRetryTarget_dryRun env st dto t hdry
    simp only [manualRetryLoop]
    rcases hp : processRetryTarget env st dto t with ⟨r1, st1, fx1⟩
    rw [hp] at hstep
    obtain ⟨hres1, hrec1, hfx1⟩ := hstep
    obtain ⟨ihres, ihrec, ihfx⟩ := ih (rs ++ [r1]) st1 (fx ++ fx1)
    refine ⟨fun res hres => ?_, by rw [ihrec, hrec1], fun e he => ?_⟩
    · rcases ihres res hres with hmem | hdryres
      · rcases List.mem_append.mp hmem with hl | hr
        · exact Or.inl hl
        · simp only [List.mem_singleton] at hr
          subst hr
          exact Or.inr hres1
      · exact Or.inr hdryres
    · rcases ihfx e he with hmem | hallowed
      · rcases List.mem_append.mp hmem with hl | hr
        · exact Or.inl hl
        · exact Or.inr (hfx1 e hr)
      · exact Or.inr hallowed

/-- C2 (amended): a dry-run retry request returns a
`skipped / dry-run` result for every resolved target, leaves the
recordings table untouched, performs no download, no upload, no forum
post and no meeting-status, Recording or license write — but it may
still insert a synthesized Meeting row and issue outbound Moodle
course-lookup POST calls and Zoom lookup GETs, because target-meeting
synthesis runs before the dry-run check. -/
theorem manualRetry_dryRun_effects (env : PipeEnv) (st : PState)
    (dto : RetryDTO) (hdry : dto.dryRun = true) :
    (∀ res ∈ (manualRetry env st dto).1,
      res = { mode := "skipped", status := "skipped", reason := "dry-run" }) ∧
    (manualRetry env st dto).2.1.recordings = st.recordings ∧
    ∀ e ∈ (manualRetry env st dto).2.2,
      e = .moodleCoursePost ∨ (∃ z, e = .insertMeeting z) ∨
        ∃ z, e = .zoomApiGet z := by
  have hres := resolveRetryTargets_effects env st dto (dto.limit.getD 5)
  simp only [manualRetry]
  rcases ht : resolveRetryTargets env st dto (dto.limit.getD 5) with ⟨targets, fxR⟩
  rw [ht] at hres
  obtain ⟨hloop1, hloop2, hloop3⟩ :=
    manualRetryLoop_dryRun env dto hdry targets [] st fxR
  refine ⟨fun res hr => ?_, hloop2, fun e he => ?_⟩
  · rcases hloop1 res hr with hmem | hdryres
    · simp at hmem
    · exact hdryres
  · rcases hloop3 e he with hmem | hallowed
    · exact Or.inr (Or.inr (hres e hmem))
    · rcases hallowed with h | h
      · exact Or.inl h
      · exact Or.inr (Or.inl h)

/-- Witness for `manualRetry_dryRun_effects` on a dry-run request for an
unknown provider meeting id with a resolvable topic. -/
theorem manualRetry_dryRun_effects_witness :
    (∀ res ∈ (manualRetry
        { resolveCourse := fun t => if t == "Algebra" then some 13 else none,
          zoomTopicFor := fun z => if z == "z9" then some "Algebra" else none }
        { meetings := [], recordings := [] }
        { zoomMeetingId := some "z9", dryRun := true }).1,
      res = { mode := "skipped", status := "skipped", reason := "dry-run" }) ∧
    (manualRetry
        { resolveCourse := fun t => if t == "Algebra" then some 13 else none,
          zoomTopicFor := fun z => if z == "z9" then some "Algebra" else none }
        { meetings := [], recordings := [] }
        { zoomMeetingId := some "z9", dryRun := true }).2.1.recordings = [] ∧
    ∀ e ∈ (manualRetry
        { resolveCourse := fun t => if t == "Algebra" then some 13 else none,
          zoomTopicFor := fun z => if z == "z9" then some "Algebra" else none }
        { meetings := [], recordings := [] }
        { zoomMeetingId := some "z9", dryRun := true }).2.2,
      e = .moodleCoursePost ∨ (∃ z, e = .insertMeeting z) ∨
        ∃ z, e = .zoomApiGet z :=
  manualRetry_dryRun_effects
    { resolveCourse := fun t => if t == "Algebra" then some 13 else none,
      zoomTopicFor := fun z => if z == "z9" then some "Algebra" else none }
    { meetings := [], recordings := [] }
    { zoomMeetingId := some "z9", dryRun := true }
    (by decide)

/-- C2 counterexample: the same dry-run request DOES write the data base
(a Meeting row is inserted) and DOES issue an outbound non-GET call (the
Moodle course-lookup POSTs), because the meeting synthesis happens
before the dry-run check; the per-target result is still
`skipped / dry-run`. -/
theorem manualRetry_dryRun_writes_meeting_counterexample :
    (Effect.insertMeeting "z9" ∈ (manualRetry
        { resolveCourse := fun t => if t == "Algebra" then some 13 else none,
          zoomTopicFor := fun z => if z == "z9" then some "Algebra" else none }
        { meetings := [], recordings := [] }
        { zoomMeetingId := some "z9", dryRun := true }).2.2) ∧
    (Effect.moodleCoursePost ∈ (manualRetry
        { resolveCourse := fun t => if t == "Algebra" then some 13 else none,
          zoomTopicFor := fun z => if z == "z9" then some "Algebra" else none }
        { meetings := [], recordings := [] }
        { zoomMeetingId := some "z9", dryRun := true }).2.2) ∧
    (manualRetry
        { resolveCourse := fun t => if t == "Algebra" then some 13 else none,
          zoomTopicFor := fun z => if z == "z9" then some "Algebra" else none }
        { meetings := [], recordings := [] }
        { zoomMeetingId := some "z9", dryRun := true }).2.1.meetings ≠ [] ∧
    (manualRetry
        { resolveCourse := fun t => if t == "Algebra" then some 13 else none,
          zoomTopicFor := fun z => if z == "z9" then some "Algebra" else none }
        { meetings := [], recordings := [] }
        { zoomMeetingId := some "z9", dryRun := true }).1
      = [{ mode := "skipped", status := "skipped", reason := "dry-run" }] := by
  refine ⟨by decide, by decide, by decide, by decide⟩

end MaliEdu
